import Mathlib

/-!
Verification development for the id-scanner prototype.

The OCR backends and the client-side parser are embedded as executable
functions over `List Char` (a JS string is modelled as its list of
characters; all inputs of interest are ASCII, for which `Char.toUpper`
etc. agree with JavaScript's `toUpperCase`).  JavaScript `null`-able
strings are modelled as `Option (List Char)` where `none` is `null` and
`some []` is the empty string (so JS truthiness of a string value `v`
is `v ≠ null ∧ v ≠ ""`).  Floating point confidence scores are modelled
as rationals; the only operation performed on them is comparison with
the literal 40, which is exact.  The regular expressions appearing in
the source are modelled by hand-written matchers that follow JavaScript
backtracking semantics for those concrete patterns.
-/

set_option maxRecDepth 20000

/-- JavaScript whitespace class (ASCII part), as matched by the regexes
of the source and by String.prototype.trim. -/
def isWS (c : Char) : Bool :=
  c = ' ' || c = '\t' || c = '\n' || c = '\r' ||
  c = Char.ofNat 11 || c = Char.ofNat 12

/-- JavaScript word character class for the backslash-w escape and for
word boundaries: ASCII letters, digits and underscore. -/
def isWordChar (c : Char) : Bool :=
  c.isAlpha || c.isDigit || c = '_'

/-- Uppercase A-Z, as in the character class of the MRZ pattern. -/
def isUpperAZ (c : Char) : Bool :=
  'A' ≤ c && c ≤ 'Z'

/-- Model of `s.replace(/\s/g, '')`: remove all whitespace characters. -/
def stripWS (l : List Char) : List Char :=
  l.filter (fun c => !isWS c)

/-- Model of `s.toUpperCase()` on ASCII input. -/
def upperL (l : List Char) : List Char :=
  l.map Char.toUpper

/-- Model of `s.trim()`: drop whitespace on both ends. -/
def trimWS (l : List Char) : List Char :=
  ((l.dropWhile isWS).reverse.dropWhile isWS).reverse

/-- Model of `hay.includes(needle)` for strings: substring containment. -/
def containsSub (hay needle : List Char) : Bool :=
  if needle.isPrefixOf hay then true
  else
    match hay with
    | [] => false
    | _ :: t => containsSub t needle

/-- Splitting on a single character, keeping empty pieces, as
`s.split(c)` does in JavaScript.  `cur` carries the current piece
reversed. -/
def splitCharGo (sep : Char) (cur : List Char) : List Char → List (List Char)
  | [] => [cur.reverse]
  | c :: rest =>
    if c = sep then cur.reverse :: splitCharGo sep [] rest
    else splitCharGo sep (c :: cur) rest

/-- Model of `s.split(sep)` for a one-character separator string. -/
def splitChar (sep : Char) (l : List Char) : List (List Char) :=
  splitCharGo sep [] l

/-- Splitting on maximal runs of separator characters, keeping the empty
edge pieces, as `s.split(/[...]+/)` does in JavaScript.  `inSep` records
whether the previous character belonged to the current separator run. -/
def splitRunsGo (p : Char → Bool) (cur : List Char) (inSep : Bool) :
    List Char → List (List Char)
  | [] => [cur.reverse]
  | c :: rest =>
    if p c then
      if inSep then splitRunsGo p cur true rest
      else cur.reverse :: splitRunsGo p [] true rest
    else splitRunsGo p (c :: cur) false rest

/-- Model of `s.split(/[class]+/)`. -/
def splitRuns (p : Char → Bool) (l : List Char) : List (List Char) :=
  splitRunsGo p [] false l

/-- Model of `s.split('<<')`: split on the double-filler separator,
left to right, non-overlapping. -/
def splitLtLt (cur : List Char) : List Char → List (List Char)
  | '<' :: '<' :: rest => cur.reverse :: splitLtLt [] rest
  | c :: rest => splitLtLt (c :: cur) rest
  | [] => [cur.reverse]

/-- Model of `s.replace(/</g, ' ')`. -/
def fillerToSpace (l : List Char) : List Char :=
  l.map (fun c => if c = '<' then ' ' else c)

/-- Model of `s.replace(/</g, '')`. -/
def removeFiller (l : List Char) : List Char :=
  l.filter (fun c => c ≠ '<')

/-- Model of `xs.join(', ')` / `xs.join(' ')` etc. -/
def joinWith (sep : List Char) (pieces : List (List Char)) : List Char :=
  List.intercalate sep pieces

/-- Numeric value of a digit string, as computed by `parseInt(s, 10)`
on an all-digit string. -/
def digitsToNat (l : List Char) : Nat :=
  l.foldl (fun acc c => acc * 10 + (c.toNat - 48)) 0

/-- Decimal rendering of a natural number, as produced by JavaScript
template interpolation of a number.  Fuel-based structural recursion;
the fuel `n` itself always suffices. -/
def natToCharsAux : Nat → Nat → List Char
  | _, 0 => []
  | 0, _ + 1 => []
  | fuel + 1, n + 1 =>
    natToCharsAux fuel ((n + 1) / 10) ++ [Char.ofNat (48 + (n + 1) % 10)]

/-- Decimal rendering of a positive natural number. -/
def natToChars (n : Nat) : List Char :=
  natToCharsAux n n

/-! ## Regular-expression models

Each regex of the source is modelled by a dedicated matcher following
JavaScript semantics (leftmost match, alternatives and quantifier
lengths tried in backtracking order, word boundaries against the
actual neighbouring character). -/

/-- Word boundary on the right of a match: end of input or a non-word
character. -/
def boundaryR : List Char → Bool
  | [] => true
  | c :: _ => !isWordChar c

/-- Number of leading characters satisfying `p`. -/
def countLeading (p : Char → Bool) : List Char → Nat
  | [] => 0
  | c :: rest => if p c then countLeading p rest + 1 else 0

/-- Consume exactly `n` leading digits, returning the remainder. -/
def takeDigits : Nat → List Char → Option (List Char)
  | 0, l => some l
  | _ + 1, [] => none
  | n + 1, c :: rest => if c.isDigit then takeDigits n rest else none

/-- Does a zip code match start here?  Models one attempt of
`\b\d{5}(-\d{4})?\b` at the current position (the leading boundary is
checked by the caller): five digits, then either a boundary or a dash,
four digits and a boundary (the optional group backtracks). -/
def zipAt (l : List Char) : Bool :=
  match takeDigits 5 l with
  | none => false
  | some rest =>
    boundaryR rest ||
      (match rest with
       | '-' :: r2 =>
         (match takeDigits 4 r2 with
          | some r3 => boundaryR r3
          | none => false)
       | _ => false)

/-- Scanner for `ZIP_CODE.test(s)`: `prevWord` is whether the previous
character is a word character (false at the start of the string). -/
def zipScan (prevWord : Bool) : List Char → Bool
  | [] => false
  | c :: rest =>
    (!prevWord && zipAt (c :: rest)) || zipScan (isWordChar c) rest

/-- Model of `/\b\d{5}(-\d{4})?\b/.test(line)`. -/
def zipTest (l : List Char) : Bool :=
  zipScan false l

/-- The two-letter region abbreviations, in the order they appear in
the alternation of the source regexes and in `STATE_MAP`. -/
def stateAbbrevs : List (List Char) :=
  ["AL".data, "AK".data, "AZ".data, "AR".data, "CA".data, "CO".data, "CT".data,
   "DE".data, "FL".data, "GA".data, "HI".data, "ID".data, "IL".data, "IN".data,
   "IA".data, "KS".data, "KY".data, "LA".data, "ME".data, "MD".data, "MA".data,
   "MI".data, "MN".data, "MS".data, "MO".data, "MT".data, "NE".data, "NV".data,
   "NH".data, "NJ".data, "NM".data, "NY".data, "NC".data, "ND".data, "OH".data,
   "OK".data, "OR".data, "PA".data, "RI".data, "SC".data, "SD".data, "TN".data,
   "TX".data, "UT".data, "VT".data, "VA".data, "WA".data, "WV".data, "WI".data,
   "WY".data]

/-- Does word `w` (uppercase letters) match here with a right word
boundary?  The caller guarantees the left boundary. -/
def wordAt (w l : List Char) : Bool :=
  w.isPrefixOf l && boundaryR (l.drop w.length)

/-- First abbreviation of `abs` matching at this position (alternatives
tried in listed order, each with its own trailing boundary). -/
def abbrevHere (abs : List (List Char)) (l : List Char) : Option (List Char) :=
  abs.findSome? (fun ab => if wordAt ab l then some ab else none)

/-- Leftmost whole-word abbreviation match, as
`text.match(/\b(AL|AK|...)\b/)` returns: scan positions left to right;
at each position with a left boundary try the alternatives in order. -/
def abbrevScan (prevWord : Bool) : List Char → Option (List Char)
  | [] => none
  | c :: rest =>
    match if prevWord then none else abbrevHere stateAbbrevs (c :: rest) with
    | some ab => some ab
    | none => abbrevScan (isWordChar c) rest

/-- Model of `text.match(/\b(AL|...|WY)\b/)`, returning the captured
abbreviation (the regex is case sensitive; `extractState` applies it to
uppercased text). -/
def abbrevMatch (l : List Char) : Option (List Char) :=
  abbrevScan false l

/-- Model of `/\b(AL|...|WY)\b/i.test(line)` (the `US_STATES` test of
`extractAddress`): case-insensitive, via uppercasing the line. -/
def usStatesTest (l : List Char) : Bool :=
  (abbrevMatch (upperL l)).isSome

/-- Whole-word test for a single uppercase word, as in `/\bFN\b/`. -/
def wholeWordScan (w : List Char) (prevWord : Bool) : List Char → Bool
  | [] => false
  | c :: rest =>
    (!prevWord && wordAt w (c :: rest)) || wholeWordScan w (isWordChar c) rest

/-- Model of `/\bW\b/.test(text)` for a fixed word `w`. -/
def wholeWordTest (w l : List Char) : Bool :=
  wholeWordScan w false l

/-- Street suffixes of `STREET_PATTERN`, uppercase. -/
def streetSuffixes : List (List Char) :=
  ["ST".data, "STREET".data, "AVE".data, "AVENUE".data, "RD".data, "ROAD".data,
   "DR".data, "DRIVE".data, "LN".data, "LANE".data, "BLVD".data, "CT".data,
   "COURT".data, "WAY".data, "PL".data, "PLACE".data]

/-- Case-insensitive prefix test against an uppercase word. -/
def isPrefixCI (w l : List Char) : Bool :=
  w.isPrefixOf (upperL (l.take w.length))

/-- Does one of the street suffixes start here (case-insensitively)?
The pattern has no trailing boundary. -/
def streetSuffixHere (l : List Char) : Bool :=
  streetSuffixes.any (fun s => isPrefixCI s l)

/-- After the digits and at least one whitespace character of
`STREET_PATTERN`, the pattern needs one-or-more word-or-whitespace
characters followed by a suffix; `consumed` records whether at least
one such character has been consumed (backtracking existence). -/
def streetTail (consumed : Bool) : List Char → Bool
  | [] => false
  | c :: rest =>
    (consumed && streetSuffixHere (c :: rest)) ||
      ((isWordChar c || isWS c) && streetTail true rest)

/-- After the leading digit run of `STREET_PATTERN`: consume remaining
digits, then require a whitespace character and the tail. -/
def streetAfterDigits : List Char → Bool
  | [] => false
  | c :: rest =>
    if c.isDigit then streetAfterDigits rest
    else if isWS c then streetTail false rest
    else false

/-- Model of
`/\d+\s+[\w\s]+(ST|STREET|AVE|AVENUE|RD|ROAD|DR|DRIVE|LN|LANE|BLVD|CT|COURT|WAY|PL|PLACE)/i.test(line)`. -/
def streetTest : List Char → Bool
  | [] => false
  | c :: rest => (c.isDigit && streetAfterDigits rest) || streetTest rest

/-! ## Date collection (`extractAllDates`)

The three global patterns are modelled by position matchers returning
the match length, combined by a scanner that restarts after each match
(JavaScript `lastIndex` semantics).  All three patterns end in a digit,
so after a match the previous-character flag is a word character. -/

/-- Consume one `[\/\-]` separator. -/
def sepSlash : List Char → Option (List Char)
  | c :: rest => if c = '/' || c = '-' then some rest else none
  | [] => none

/-- Last two components of pattern 1/2: `[\/\-](\d{1,2})\b`-style tail
with digit counts tried in the given order. -/
def dateDigits (counts : List Nat) (l : List Char) : Option (List Char) :=
  counts.findSome? (fun n =>
    match takeDigits n l with
    | some r => if boundaryR r then some r else none
    | none => none)

/-- Match length of pattern `\b(\d{1,2})[\/\-](\d{1,2})[\/\-](\d{2,4})\b`
at this position (leading boundary checked by the scanner). -/
def p1At (l : List Char) : Option Nat :=
  [2, 1].findSome? (fun a =>
    match takeDigits a l with
    | none => none
    | some r1 =>
      match sepSlash r1 with
      | none => none
      | some r2 =>
        [2, 1].findSome? (fun b =>
          match takeDigits b r2 with
          | none => none
          | some r3 =>
            match sepSlash r3 with
            | none => none
            | some r4 =>
              match dateDigits [4, 3, 2] r4 with
              | some r5 => some (l.length - r5.length)
              | none => none))

/-- Match length of pattern `\b(\d{4})[\/\-](\d{1,2})[\/\-](\d{1,2})\b`. -/
def p2At (l : List Char) : Option Nat :=
  match takeDigits 4 l with
  | none => none
  | some r1 =>
    match sepSlash r1 with
    | none => none
    | some r2 =>
      [2, 1].findSome? (fun b =>
        match takeDigits b r2 with
        | none => none
        | some r3 =>
          match sepSlash r3 with
          | none => none
          | some r4 =>
            match dateDigits [2, 1] r4 with
            | some r5 => some (l.length - r5.length)
            | none => none)

/-- Three-letter month abbreviations of pattern 3. -/
def monthAbbrevs : List (List Char) :=
  ["JAN".data, "FEB".data, "MAR".data, "APR".data, "MAY".data, "JUN".data,
   "JUL".data, "AUG".data, "SEP".data, "OCT".data, "NOV".data, "DEC".data]

/-- After the month of pattern 3: `[A-Z]*[\s\-,]*(\d{2,4})\b` with the
maximal-run reading (the runs are over disjoint classes, so greedy
matching with backtracking reduces to maximal runs and an exact final
digit-run length of 2 to 4). -/
def p3Tail (l : List Char) : Option (List Char) :=
  let afterLetters := l.dropWhile Char.isAlpha
  let afterSeps := afterLetters.dropWhile (fun c => isWS c || c = '-' || c = ',')
  let r := countLeading Char.isDigit afterSeps
  if 2 ≤ r && r ≤ 4 && boundaryR (afterSeps.drop r) then
    some (afterSeps.drop r)
  else none

/-- Match length of pattern
`\b(\d{1,2})[\s\-]?(JAN|...|DEC)[A-Z]*[\s\-,]*(\d{2,4})\b` (applied
case-insensitively: the month and letter run are compared after
uppercasing). -/
def p3At (l : List Char) : Option Nat :=
  [2, 1].findSome? (fun a =>
    match takeDigits a l with
    | none => none
    | some r1 =>
      let tryMonth := fun (r : List Char) =>
        if monthAbbrevs.any (fun m => isPrefixCI m r) then
          p3Tail ((upperL r).drop 3)
        else none
      let withSep :=
        match r1 with
        | c :: r2 => if isWS c || c = '-' then tryMonth r2 else none
        | [] => none
      match withSep with
      | some r5 => some (l.length - r5.length)
      | none =>
        match tryMonth r1 with
        | some r5 => some (l.length - r5.length)
        | none => none)

/-- Global collection scanner: at each position with a left word
boundary and a leading digit try the matcher; on a match of length `k`
record the matched text and continue after it (the last matched
character is always a digit, hence a word character).  The fuel is the
length of the remaining input, which always suffices since matches are
nonempty. -/
def collectDates (matchAt : List Char → Option Nat) :
    Nat → Bool → List Char → List (List Char)
  | 0, _, _ => []
  | _ + 1, _, [] => []
  | fuel + 1, prevWord, c :: rest =>
    match if prevWord || !c.isDigit then none else matchAt (c :: rest) with
    | some k =>
      (c :: rest).take k :: collectDates matchAt fuel true ((c :: rest).drop k)
    | none => collectDates matchAt fuel (isWordChar c) rest

/-- Model of `extractAllDates` (identical in the two backend service
files and in `idParser.ts`): all matches of the three date patterns,
collected per pattern in order. -/
def extractAllDates (text : List Char) : List (List Char) :=
  collectDates p1At text.length false text ++
  collectDates p2At text.length false text ++
  collectDates p3At text.length false text

/-! ## Region lookup (`extractState`)

The function is textually identical in the two backend service files
and in `idParser.ts`. -/

/-- Table `STATE_MAP` of the source: abbreviation to canonical name, in
insertion order (which `Object.entries` preserves). -/
def stateMap : List (List Char × List Char) :=
  [("AL".data, "Alabama".data), ("AK".data, "Alaska".data),
   ("AZ".data, "Arizona".data), ("AR".data, "Arkansas".data),
   ("CA".data, "California".data), ("CO".data, "Colorado".data),
   ("CT".data, "Connecticut".data), ("DE".data, "Delaware".data),
   ("FL".data, "Florida".data), ("GA".data, "Georgia".data),
   ("HI".data, "Hawaii".data), ("ID".data, "Idaho".data),
   ("IL".data, "Illinois".data), ("IN".data, "Indiana".data),
   ("IA".data, "Iowa".data), ("KS".data, "Kansas".data),
   ("KY".data, "Kentucky".data), ("LA".data, "Louisiana".data),
   ("ME".data, "Maine".data), ("MD".data, "Maryland".data),
   ("MA".data, "Massachusetts".data), ("MI".data, "Michigan".data),
   ("MN".data, "Minnesota".data), ("MS".data, "Mississippi".data),
   ("MO".data, "Missouri".data), ("MT".data, "Montana".data),
   ("NE".data, "Nebraska".data), ("NV".data, "Nevada".data),
   ("NH".data, "New Hampshire".data), ("NJ".data, "New Jersey".data),
   ("NM".data, "New Mexico".data), ("NY".data, "New York".data),
   ("NC".data, "North Carolina".data), ("ND".data, "North Dakota".data),
   ("OH".data, "Ohio".data), ("OK".data, "Oklahoma".data),
   ("OR".data, "Oregon".data), ("PA".data, "Pennsylvania".data),
   ("RI".data, "Rhode Island".data), ("SC".data, "South Carolina".data),
   ("SD".data, "South Dakota".data), ("TN".data, "Tennessee".data),
   ("TX".data, "Texas".data), ("UT".data, "Utah".data),
   ("VT".data, "Vermont".data), ("VA".data, "Virginia".data),
   ("WA".data, "Washington".data), ("WV".data, "West Virginia".data),
   ("WI".data, "Wisconsin".data), ("WY".data, "Wyoming".data)]

/-- Model of `extractState(text)`: first full state name contained in
the text (in map order, uppercased comparison), else the leftmost
whole-word abbreviation mapped through the table (falling back to the
abbreviation itself if the lookup failed, as the `|| abbrevMatch[1]`
of the source does). -/
def extractState (text : List Char) : Option (List Char) :=
  match stateMap.findSome? (fun p =>
      if containsSub text (upperL p.2) then some p.2 else none) with
  | some nm => some nm
  | none =>
    match abbrevMatch text with
    | some ab =>
      match stateMap.findSome? (fun p => if p.1 = ab then some p.2 else none) with
      | some nm => some nm
      | none => some ab
    | none => none

/-! ## Name extraction (`extractName` and helpers), textually identical
across the three copies in the source. -/

/-- Model of `extractValueAfterLabel(line)`: split on runs of colons
and whitespace; with at least two parts, join the rest with single
spaces and trim; empty result is null. -/
def extractValueAfterLabel (line : List Char) : Option (List Char) :=
  let parts := splitRuns (fun c => c = ':' || isWS c) line
  if 2 ≤ parts.length then
    let v := trimWS (joinWith [' '] (parts.drop 1))
    if v.isEmpty then none else some v
  else none

/-- Model of `isNameLike(text)`: letters, whitespace, hyphens and
apostrophes only, length 2 to 50. -/
def isNameLike (text : List Char) : Bool :=
  text.all (fun c => c.isAlpha || isWS c || c = '-' || c = Char.ofNat 39) &&
  2 ≤ text.length && text.length ≤ 50

/-- The field-label keywords excluded by strategy 3 of `extractName`
(the anchored case-insensitive alternation). -/
def nameKeywords : List (List Char) :=
  ["NAME".data, "DOB".data, "SEX".data, "ADDRESS".data, "LICENSE".data,
   "EXP".data, "CLASS".data, "ISS".data, "HT".data, "WT".data, "EYES".data,
   "HAIR".data, "STATE".data, "DL".data]

/-- Strategy 1 test: `upper.match(/^NAME\b/) || upper.includes('FULL NAME')`. -/
def nameLabelLine (u : List Char) : Bool :=
  ("NAME".data.isPrefixOf u && boundaryR (u.drop 4)) ||
  containsSub u "FULL NAME".data

/-- One step of strategy 2 of `extractName`: update the first/last name
candidates from one line (later matching lines overwrite earlier ones). -/
def firstLastStep (st : Option (List Char) × Option (List Char))
    (line : List Char) : Option (List Char) × Option (List Char) :=
  let u := upperL line
  let v := extractValueAfterLabel line
  let good := match v with | some w => isNameLike w | none => false
  let st1 :=
    if (containsSub u "FIRST".data || containsSub u "GIVEN".data ||
        wholeWordTest "FN".data u) && good
    then (v, st.2) else st
  if (containsSub u "LAST".data || containsSub u "SURNAME".data ||
      wholeWordTest "LN".data u) && good
  then (st1.1, v) else st1

/-- Strategy 3 test and value: a line with no digit, length at least 4,
not a bare keyword, whose whitespace-separated purely-alphabetic words
of length at least 2 number between 2 and 4. -/
def nameFallback (line : List Char) : Option (List Char) :=
  if line.any Char.isDigit then none
  else if line.length < 4 then none
  else if nameKeywords.any (fun k => upperL (trimWS line) = k) then none
  else
    let words := (splitRuns isWS line).filter
      (fun w => w.all Char.isAlpha && 1 < w.length)
    if 2 ≤ words.length && words.length ≤ 4 then
      some (joinWith [' '] words)
    else none

/-- Model of `extractName(lines, upperText)` (the second argument is
unused by the source function and omitted here): three strategies in
order. -/
def extractName (lines : List (List Char)) : Option (List Char) :=
  match lines.findSome? (fun line =>
      if nameLabelLine (upperL line) then
        match extractValueAfterLabel line with
        | some v => if isNameLike v then some v else none
        | none => none
      else none) with
  | some v => some v
  | none =>
    let fl := lines.foldl firstLastStep (none, none)
    if fl.1.isSome || fl.2.isSome then
      some (joinWith [' '] ((([fl.1, fl.2].filterMap id))))
    else
      lines.findSome? nameFallback

/-! ## ID number extraction (`extractIDNumber`), textually identical
across the three copies in the source. -/

/-- Leftmost match of `/[A-Z]?\d{5,}/i`: at each position, try one
letter followed by at least five digits (the digit run is greedy),
else at least five digits starting here. -/
def idLabelMatch1 : List Char → Option (List Char)
  | [] => none
  | c :: rest =>
    if c.isAlpha && 5 ≤ countLeading Char.isDigit rest then
      some (c :: rest.take (countLeading Char.isDigit rest))
    else if c.isDigit && 5 ≤ countLeading Char.isDigit (c :: rest) then
      some ((c :: rest).take (countLeading Char.isDigit (c :: rest)))
    else idLabelMatch1 rest

/-- Leftmost match of `/[A-Z0-9]{7,15}/i`: first position whose
alphanumeric run has length at least 7; greedy up to 15. -/
def idLabelMatch2 : List Char → Option (List Char)
  | [] => none
  | c :: rest =>
    let r := countLeading (fun x => x.isAlpha || x.isDigit) (c :: rest)
    if 7 ≤ r then some ((c :: rest).take (min r 15))
    else idLabelMatch2 rest

/-- Leftmost match of `/\b[A-Z]\d{7,}\b/i`: a letter at a left word
boundary, at least seven digits, and a right boundary after the
maximal digit run. -/
def idStandaloneScan (prevWord : Bool) : List Char → Option (List Char)
  | [] => none
  | c :: rest =>
    let d := countLeading Char.isDigit rest
    if !prevWord && c.isAlpha && 7 ≤ d && boundaryR (rest.drop d) then
      some (c :: rest.take d)
    else idStandaloneScan (isWordChar c) rest

/-- Leftmost match of `/\b[A-Z0-9]{8,12}\b/` (case sensitive): at a
left boundary, a maximal run of uppercase letters and digits of length
8 to 12 followed by a right boundary (a longer run cannot match, since
every shorter greedy attempt ends on a word character). -/
def idAlnumScan (prevWord : Bool) : List Char → Option (List Char)
  | [] => none
  | c :: rest =>
    let r := countLeading (fun x => isUpperAZ x || x.isDigit) (c :: rest)
    if !prevWord && 8 ≤ r && r ≤ 12 && boundaryR ((c :: rest).drop r) then
      some ((c :: rest).take r)
    else idAlnumScan (isWordChar c) rest

/-- The document-number label keywords of `extractIDNumber`. -/
def idKeywords : List (List Char) :=
  ["DL".data, "LICENSE".data, "ID NO".data, "DOCUMENT".data, "NUMBER".data,
   "NO.".data, "ID#".data, "DLN".data]

/-- Model of `extractIDNumber(lines, upperText)` (the second argument
is unused by the source function and omitted here): label-anchored
tier, then standalone letter-plus-digits tier, then 8-to-12 character
alphanumeric tier excluding purely numeric tokens. -/
def extractIDNumber (lines : List (List Char)) : Option (List Char) :=
  match lines.findSome? (fun line =>
      if idKeywords.any (fun k => containsSub (upperL line) k) then
        match idLabelMatch1 line with
        | some m => some m
        | none => idLabelMatch2 line
      else none) with
  | some m => some m
  | none =>
    match lines.findSome? (fun line => idStandaloneScan false line) with
    | some m => some m
    | none =>
      lines.findSome? (fun line =>
        match idAlnumScan false line with
        | some m => if m.all Char.isDigit then none else some m
        | none => none)

/-! ## Address extraction (`extractAddress`), textually identical
across the three copies in the source. -/

/-- Does the line carry an address label
(`upper.includes('ADDRESS') || upper.includes('ADDR')`)? -/
def addrLabelLine (line : List Char) : Bool :=
  containsSub (upperL line) "ADDRESS".data ||
  containsSub (upperL line) "ADDR".data

/-- Model of `line.replace(/.*ADDRESS[:\s]*/i, '')`: everything after
the last case-insensitive occurrence of `ADDRESS` (the greedy `.*`
backtracks to the last occurrence) and the following run of colons and
whitespace; the line itself if `ADDRESS` does not occur. -/
def afterLastAddress : List Char → Option (List Char)
  | [] => none
  | c :: rest =>
    match afterLastAddress rest with
    | some r => some r
    | none =>
      if isPrefixCI "ADDRESS".data (c :: rest) then
        some (((c :: rest).drop 7).dropWhile (fun x => x = ':' || isWS x))
      else none

/-- The text pushed for a label line: text after the label, trimmed;
nothing if empty. -/
def addrAfterLabel (line : List Char) : List Char :=
  trimWS ((afterLastAddress line).getD line)

/-- The capture loop of `extractAddress`, one recursive step per line.
`capturing` and `acc` mirror the mutable `capturing` and
`addressLines`; the zip-code `break` of the source ends the loop even
when the current line was too short (length at most 5) to be pushed. -/
def extractAddressGo : List (List Char) → Bool → List (List Char) →
    List (List Char)
  | [], _, acc => acc
  | line :: rest, capturing, acc =>
    if addrLabelLine line then
      let a := addrAfterLabel line
      extractAddressGo rest true (if a.isEmpty then acc else acc ++ [a])
    else if capturing || streetTest line || (usStatesTest line && zipTest line) then
      let acc2 := if 5 < line.length then acc ++ [line] else acc
      let cap2 := if 5 < line.length then true else capturing
      if zipTest line then acc2
      else extractAddressGo rest cap2 acc2
    else extractAddressGo rest capturing acc

/-- Model of `extractAddress(lines, upperText)` (the second argument is
unused by the source function and omitted here). -/
def extractAddress (lines : List (List Char)) : Option (List Char) :=
  let pieces := extractAddressGo lines false []
  if pieces.isEmpty then none else some (joinWith ", ".data pieces)

/-! ## Data model -/

/-- The canonical extracted record: the five structured fields, every
one independently nullable (`none` is JavaScript `null`; `some []` is
the empty string, which is not null). -/
structure ExtractedRecord where
  name : Option (List Char)
  dateOfBirth : Option (List Char)
  address : Option (List Char)
  idNumber : Option (List Char)
  state : Option (List Char)
deriving DecidableEq, Repr

/-- Model of `Object.values(data).every(v => v === null)` for a record
with exactly the five structured fields. -/
def allNull (r : ExtractedRecord) : Bool :=
  r.name.isNone && r.dateOfBirth.isNone && r.address.isNone &&
  r.idNumber.isNone && r.state.isNone

/-- A successful backend adapter result: `{ data, rawText }`. -/
structure ScanOk where
  data : ExtractedRecord
  rawText : List Char
deriving DecidableEq, Repr

/-- Is the adapter outcome a failure (a thrown error)? -/
def scanFails (e : Except Unit ScanOk) : Bool :=
  match e with
  | .error _ => true
  | .ok _ => false

/-- The `ParsedID` interface of `idParser.ts`. -/
structure ParsedID where
  name : Option (List Char)
  dateOfBirth : Option (List Char)
  address : Option (List Char)
  idNumber : Option (List Char)
  state : Option (List Char)
  rawText : List Char
deriving DecidableEq, Repr

/-! ## MRZ date conversion -/

/-- Shared slash-format conversion body (`convertMrzDate` in both
backend service files; the same logic is inlined in `parseManualMRZ`):
a 6-digit `YYMMDD` string becomes `MM/DD/YYYY` with the century pivot
`year > 30`. -/
def mrzDateSlash (s : List Char) : Option (List Char) :=
  if s.length = 6 && s.all Char.isDigit then
    let year := digitsToNat (s.take 2)
    let fullYear := if 30 < year then 1900 + year else 2000 + year
    some ((s.drop 2).take 2 ++ '/' :: ((s.drop 4).take 2 ++ '/' :: natToChars fullYear))
  else none

/-- Model of `convertMrzDate(yymmdd)` of the backend service files:
null or a non-6-digit string gives null (an absent field and a falsy
empty string both fail the `/^\d{6}$/` gate). -/
def convertMrzDate (yymmdd : Option (List Char)) : Option (List Char) :=
  match yymmdd with
  | none => none
  | some s => mrzDateSlash s

/-- The dash-format conversion inlined in `parseMRZ` of `idParser.ts`:
the same pivoted year, rendered `YYYY-MM-DD`.  The caller guards the
6-digit shape. -/
def dashDate (s : List Char) : List Char :=
  let year := digitsToNat (s.take 2)
  let fullYear := if 30 < year then 1900 + year else 2000 + year
  natToChars fullYear ++ '-' :: ((s.drop 2).take 2 ++ '-' :: (s.drop 4).take 2)

/-! ## MRZ candidate detection -/

/-- Model of `MRZ_PATTERN.test(l.replace(/\s/g, ''))` for the anchored
pattern `^[A-Z0-9<]{lo,44}$`: the whitespace-stripped line consists of
uppercase letters, digits and filler only, with length in range.  The
backend service uses `lo = 20`; `idParser.ts` uses `lo = 30`. -/
def mrzCandidate (lo : Nat) (l : List Char) : Bool :=
  let c := stripWS l
  c.all (fun ch => isUpperAZ ch || ch.isDigit || ch = '<') &&
  lo ≤ c.length && c.length ≤ 44

/-! ## Manual MRZ decoding (backend `parseManualMRZ`) -/

/-- Model of `[first, last].filter(Boolean).join(' ') || null`. -/
def joinNames (first last : List Char) : Option (List Char) :=
  let v := joinWith [' '] ([first, last].filter (fun p => !p.isEmpty))
  if v.isEmpty then none else some v

/-- Model of `parseManualMRZ(mrzLines)`: name from offset 5 of line 1
split on the double filler, birth date from the first six characters of
line 2 (slash format), document number from the first nine characters
of line 2 with filler stripped. -/
def parseManualMRZ (mrzLines : List (List Char)) : ExtractedRecord :=
  let line1 := stripWS (mrzLines.getD 0 [])
  let line2 := stripWS (mrzLines.getD 1 [])
  let nameParts := splitLtLt [] (line1.drop 5)
  let lastName := trimWS (fillerToSpace (nameParts.getD 0 []))
  let firstName := trimWS (fillerToSpace (nameParts.getD 1 []))
  let dob :=
    if 6 ≤ line2.length then mrzDateSlash (line2.take 6) else none
  let idNum := removeFiller (line2.take 9)
  { name := joinNames firstName lastName
    dateOfBirth := dob
    address := none
    idNumber := if idNum.isEmpty then none else some idNum
    state := none }

/-! ## Client-side parser (`idParser.ts`) -/

/-- Model of `parseMRZ(lines)`: filter candidate lines with the 30-44
pattern; with fewer than two candidates there is no MRZ.  Line 1 must
be at least 30 characters; the birth date (dash format) additionally
needs line 2 to be at least 20 characters. -/
def parseMRZ (lines : List (List Char)) : Option ExtractedRecord :=
  let mrzLines := lines.filter (mrzCandidate 30)
  if mrzLines.length < 2 then none
  else
    let line1 := stripWS (mrzLines.getD 0 [])
    let line2 := stripWS (mrzLines.getD 1 [])
    if 30 ≤ line1.length then
      let nameParts := splitLtLt [] (line1.drop 5)
      let lastName := trimWS (fillerToSpace (nameParts.getD 0 []))
      let firstName := trimWS (fillerToSpace (nameParts.getD 1 []))
      let dob :=
        if 20 ≤ line2.length then
          let dobRaw := line2.take 6
          if dobRaw.length = 6 && dobRaw.all Char.isDigit then
            some (dashDate dobRaw)
          else none
        else none
      let idNum := removeFiller (line2.take 9)
      some { name := joinNames firstName lastName
             dateOfBirth := dob
             address := none
             idNumber := if idNum.isEmpty then none else some idNum
             state := none }
    else none

/-- Model of `ocrText.split('\n').map(l => l.trim()).filter(Boolean)`. -/
def linesOf (text : List Char) : List (List Char) :=
  ((splitChar '\n' text).map trimWS).filter (fun l => !l.isEmpty)

/-- Model of `allDates[0] || null`. -/
def firstDate (ds : List (List Char)) : Option (List Char) :=
  match ds with
  | [] => none
  | d :: _ => if d.isEmpty then none else some d

/-- The heuristic extraction block shared by `parseIDText`,
`scanWithTesseract` and `scanWithEasyOCR`: all five fields from the
lines and the raw text. -/
def regexData (lines : List (List Char)) (text : List Char) : ExtractedRecord :=
  { name := extractName lines
    dateOfBirth := firstDate (extractAllDates text)
    address := extractAddress lines
    idNumber := extractIDNumber lines
    state := extractState (upperL text) }

/-- Model of `parseIDText(ocrText)`: MRZ path if `parseMRZ` finds one,
else the heuristic path; `rawText` is the input in both cases.  The
function is total: the model never fails. -/
def parseIDText (ocrText : List Char) : ParsedID :=
  match parseMRZ (linesOf ocrText) with
  | some m =>
    { name := m.name, dateOfBirth := m.dateOfBirth, address := m.address,
      idNumber := m.idNumber, state := m.state, rawText := ocrText }
  | none =>
    let d := regexData (linesOf ocrText) ocrText
    { name := d.name, dateOfBirth := d.dateOfBirth, address := d.address,
      idNumber := d.idNumber, state := d.state, rawText := ocrText }

/-! ## Tesseract backend adapter (`tesseractService`)

The structured decode goes through the optional `mrz` package; its
`parse` function is modelled as an oracle the adapter receives (the
resolved value of `getMrzParse()`), returning either a thrown error or
a result object. -/

/-- The fields object returned by the `mrz` package, restricted to the
fields the adapter reads.  `othersTruthy` models the truthiness of any
further fields of the library's field bag, which only feed the
`Object.values(fields).some(Boolean)` acceptance test. -/
structure MrzLibFields where
  lastName : Option (List Char)
  firstName : Option (List Char)
  documentNumber : Option (List Char)
  birthDate : Option (List Char)
  issuingState : Option (List Char)
  othersTruthy : Bool

/-- The result object of `mrz.parse`. -/
structure MrzLibResult where
  valid : Bool
  fields : MrzLibFields

/-- The resolved `parse` function of the optional `mrz` package: it may
throw on malformed input. -/
def MrzLib : Type :=
  List (List Char) → Except Unit MrzLibResult

/-- JS truthiness of a nullable string field. -/
def truthyStr (v : Option (List Char)) : Bool :=
  match v with
  | none => false
  | some s => !s.isEmpty

/-- Model of `Object.values(fields).some(Boolean)`. -/
def someTruthy (f : MrzLibFields) : Bool :=
  truthyStr f.lastName || truthyStr f.firstName || truthyStr f.documentNumber ||
  truthyStr f.birthDate || truthyStr f.issuingState || f.othersTruthy

/-- Model of `buildMrzName(fields)`. -/
def buildMrzName (f : MrzLibFields) : Option (List Char) :=
  let last := trimWS (fillerToSpace (f.lastName.getD []))
  let first := trimWS (fillerToSpace (f.firstName.getD []))
  joinNames first last

/-- Model of `fields.documentNumber ? fields.documentNumber.replace(/</g, '') : null`
(note: the replaced string may be empty, which is not null). -/
def mrzLibDocNumber (f : MrzLibFields) : Option (List Char) :=
  if truthyStr f.documentNumber then some (removeFiller (f.documentNumber.getD []))
  else none

/-- Model of `fields.issuingState || null`. -/
def mrzLibIssuingState (f : MrzLibFields) : Option (List Char) :=
  if truthyStr f.issuingState then f.issuingState else none

/-- The record computed by `scanWithTesseract` before its quality gate:
MRZ path (library decode, falling back to the manual decode) when at
least two candidate lines (20-44 pattern) exist, heuristic path
otherwise.  `lib` is the resolved `mrz.parse` (`none` when the package
is unavailable). -/
def tesseractData (lib : Option MrzLib) (text : List Char) : ExtractedRecord :=
  let lines := linesOf text
  let mrzLines := lines.filter (mrzCandidate 20)
  if 2 ≤ mrzLines.length then
    let viaLib : Option ExtractedRecord :=
      match lib with
      | some parse =>
        match parse (mrzLines.take 3) with
        | .ok r =>
          if r.valid || someTruthy r.fields then
            some { name := buildMrzName r.fields
                   dateOfBirth := convertMrzDate r.fields.birthDate
                   address := extractAddress lines
                   idNumber := mrzLibDocNumber r.fields
                   state := mrzLibIssuingState r.fields }
          else none
        | .error _ => none
      | none => none
    match viaLib with
    | some d => d
    | none => parseManualMRZ mrzLines
  else regexData lines text

/-- Model of `scanWithTesseract` after a successful engine recognition
(worker initialized, recognition returned `text` and `confidence`):
compute the record, then apply the quality gate — throw when the
confidence is below 40 or every structured field is null, otherwise
return the record with the raw text. -/
def scanWithTesseract (lib : Option MrzLib) (text : List Char)
    (confidence : ℚ) : Except Unit ScanOk :=
  if confidence < 40 || allNull (tesseractData lib text) then .error ()
  else .ok { data := tesseractData lib text, rawText := text }

/-! ## EasyOCR backend adapter (`easyocrService`) -/

/-- The PassportEye MRZ block of a Python OCR service response,
restricted to the fields the adapter reads. -/
structure EasyMrz where
  surname : Option (List Char)
  given_names : Option (List Char)
  document_number : Option (List Char)
  date_of_birth : Option (List Char)
  country : Option (List Char)
  nationality : Option (List Char)
deriving DecidableEq, Repr

/-- A successful (`success: true`, HTTP 200) Python OCR service
response, as read by `scanWithEasyOCR`: raw text, confidence, the line
texts, and the optional MRZ block. -/
structure EasyResp where
  raw_text : List Char
  confidence : ℚ
  lines : List (List Char)
  mrz : Option EasyMrz
deriving DecidableEq

/-- Model of `mrz.country || mrz.nationality || null`. -/
def countryOrNationality (m : EasyMrz) : Option (List Char) :=
  if truthyStr m.country then m.country
  else if truthyStr m.nationality then m.nationality
  else none

/-- The record computed by `scanWithEasyOCR` before its gate:
PassportEye structured fields when the response has an MRZ block, else
the heuristic path over the response's lines and raw text. -/
def easyData (resp : EasyResp) : ExtractedRecord :=
  match resp.mrz with
  | some m =>
    let surname := trimWS (fillerToSpace (m.surname.getD []))
    let given := trimWS (fillerToSpace (m.given_names.getD []))
    let idNum := trimWS (removeFiller (m.document_number.getD []))
    { name := joinNames given surname
      dateOfBirth := convertMrzDate m.date_of_birth
      address := none
      idNumber := if idNum.isEmpty then none else some idNum
      state := countryOrNationality m }
  | none => regexData resp.lines resp.raw_text

/-- Model of `scanWithEasyOCR` on a successful service response: throw
exactly when every structured field is null; the confidence is logged
but never gated on. -/
def scanWithEasyOCR (resp : EasyResp) : Except Unit ScanOk :=
  if allNull (easyData resp) then .error ()
  else .ok { data := easyData resp, rawText := resp.raw_text }

/-! ## Lazy resolution of the optional `mrz` package (`getMrzParse`) -/

/-- The process-wide `_mrzParse` cell: `unresolved` is the initial
`null`, `unavailable` is the `false` written after a failed import,
`resolved` holds a found parse function. -/
inductive MrzCell where
  | unresolved : MrzCell
  | unavailable : MrzCell
  | resolved : MrzLib → MrzCell

/-- The outcome of one call to `getMrzParse`. -/
structure MrzStep where
  cell : MrzCell
  result : Option MrzLib
  attemptedImport : Bool

/-- Model of one call to `getMrzParse()`.  `importOutcome` is what
`await import('mrz')` would do if executed on this call: throw, or
succeed with (`some`) or without (`none`) a usable `parse` function.
The early return `if (_mrzParse) return _mrzParse` fires only when the
cell holds a function — the `false` written on failure is falsy, so a
call in the `unavailable` state runs the import again. -/
def getMrzParse (cell : MrzCell) (importOutcome : Except Unit (Option MrzLib)) :
    MrzStep :=
  match cell with
  | .resolved f => { cell := .resolved f, result := some f, attemptedImport := false }
  | _ =>
    match importOutcome with
    | .error _ =>
      { cell := .unavailable, result := none, attemptedImport := true }
    | .ok (some f) =>
      { cell := .resolved f, result := some f, attemptedImport := true }
    | .ok none =>
      { cell := .unresolved, result := none, attemptedImport := true }

/-! ## Specification-side definitions

These follow the wording of the specification and its claims, to be
compared with the definitions translated from the source. -/

/-- The century pivot as the specification words it: a two-digit year
greater than 30 belongs to the 1900s, otherwise to the 2000s. -/
def mrzPivotYear (yy : Nat) : Nat :=
  if 30 < yy then 1900 + yy else 2000 + yy

/-- MRZ candidate as the claim words it: after removing whitespace, the
line consists solely of uppercase letters, digits and the filler
character, with length between `lo` and 44 inclusive. -/
def specMrzCandidate (lo : Nat) (l : List Char) : Bool :=
  let c := stripWS l
  c.all (fun ch => isUpperAZ ch || ch.isDigit || ch = '<') &&
  lo ≤ c.length && c.length ≤ 44

/-- Is a date string of the shape month/day/4-digit-year (digits
separated by slashes, four-digit year)? -/
def isSlashMDY (l : List Char) : Bool :=
  match splitChar '/' l with
  | [mm, dd, y] =>
    !mm.isEmpty && mm.all Char.isDigit && !dd.isEmpty && dd.all Char.isDigit &&
    y.length = 4 && y.all Char.isDigit
  | _ => false

/-- The address-capture loop exactly as claim C8 words it: every line
examined while capturing (or matching a start trigger) is captured,
and the scan stops only after a captured line containing a postal
code.  (The source differs: it captures only lines longer than five
characters but stops on any postal-code line it examines.) -/
def extractAddressClaimGo : List (List Char) → Bool → List (List Char) →
    List (List Char)
  | [], _, acc => acc
  | line :: rest, capturing, acc =>
    if addrLabelLine line then
      let a := addrAfterLabel line
      extractAddressClaimGo rest true (if a.isEmpty then acc else acc ++ [a])
    else if capturing || streetTest line || (usStatesTest line && zipTest line) then
      let acc2 := acc ++ [line]
      if zipTest line then acc2 else extractAddressClaimGo rest true acc2
    else extractAddressClaimGo rest capturing acc

/-- Address extraction as claim C8 words it. -/
def extractAddressSpec (lines : List (List Char)) : Option (List Char) :=
  let pieces := extractAddressClaimGo lines false []
  if pieces.isEmpty then none else some (joinWith ", ".data pieces)

/-- State of the amended address-capture description: accumulated
pieces, whether capture has started, and whether the scan has stopped. -/
structure AddrState where
  pieces : List (List Char)
  capturing : Bool
  stopped : Bool

/-- One line of the amended address-capture description: label lines
start capture and contribute their after-label text; while capturing
(or on a start trigger) lines longer than five characters are
captured; the scan stops at the first postal-code line examined in
that branch, captured or not. -/
def addrStep (st : AddrState) (line : List Char) : AddrState :=
  if st.stopped then st
  else if addrLabelLine line then
    let a := addrAfterLabel line
    { pieces := if a.isEmpty then st.pieces else st.pieces ++ [a]
      capturing := true
      stopped := false }
  else if st.capturing || streetTest line || (usStatesTest line && zipTest line) then
    { pieces := if 5 < line.length then st.pieces ++ [line] else st.pieces
      capturing := if 5 < line.length then true else st.capturing
      stopped := zipTest line }
  else st

/-- Address extraction as the amended claim describes it: a fold of the
step function over the lines. -/
def extractAddressSpecAmended (lines : List (List Char)) : Option (List Char) :=
  let st := lines.foldl addrStep { pieces := [], capturing := false, stopped := false }
  if st.pieces.isEmpty then none else some (joinWith ", ".data st.pieces)

/-! ## Helper lemmas -/

/-- A digit character has code point between 48 and 57. -/
theorem digit_char_bounds (c : Char) (h : c.isDigit = true) :
    48 ≤ c.toNat ∧ c.toNat ≤ 57 := by
  simp [Char.isDigit] at h
  exact h

/-- The numeric value of a two-character digit string is below 100. -/
theorem digitsToNat_two_lt (l : List Char) (hlen : l.length = 2)
    (hd : l.all Char.isDigit = true) : digitsToNat l < 100 := by
  match l, hlen with
  | [a, b], _ =>
    simp [List.all_cons] at hd
    obtain ⟨ha, hb⟩ := hd
    have ha' := digit_char_bounds a ha
    have hb' := digit_char_bounds b hb
    simp [digitsToNat]
    omega

/-- For any two-digit year, the pivoted full year has exactly four
digits (numerically and in its decimal rendering). -/
theorem pivotYear_props : ∀ yy < 100, 1000 ≤ mrzPivotYear yy ∧
    mrzPivotYear yy < 10000 ∧ (natToChars (mrzPivotYear yy)).length = 4 ∧
    (natToChars (mrzPivotYear yy)).all Char.isDigit = true := by decide

/-- Unfolding of the shared slash-format conversion on a 6-digit
string, with the year expressed through the specification's pivot. -/
theorem mrzDateSlash_eq (s : List Char) (hlen : s.length = 6)
    (hdig : s.all Char.isDigit = true) :
    mrzDateSlash s = some ((s.drop 2).take 2 ++ '/' ::
      ((s.drop 4).take 2 ++ '/' ::
        natToChars (mrzPivotYear (digitsToNat (s.take 2))))) := by
  simp [mrzDateSlash, hlen, hdig, mrzPivotYear]

/-- Unfolding of the dash-format conversion, with the year expressed
through the specification's pivot. -/
theorem dashDate_eq (s : List Char) :
    dashDate s = natToChars (mrzPivotYear (digitsToNat (s.take 2))) ++ '-' ::
      ((s.drop 2).take 2 ++ '-' :: (s.drop 4).take 2) := by
  simp [dashDate, mrzPivotYear]

/-- Predicate `allNull` spelled out over the five structured fields. -/
theorem allNull_iff (r : ExtractedRecord) :
    allNull r = true ↔ (r.name = none ∧ r.dateOfBirth = none ∧ r.address = none ∧
      r.idNumber = none ∧ r.state = none) := by
  simp [allNull, Option.isNone_iff_eq_none, and_assoc]

/-! ## Claims -/

/-- Claim C1: with the worker initialized, `scanWithTesseract` throws
exactly when the reported confidence is below 40 or all five
structured fields of the extracted record are null; otherwise it
returns that record together with the raw text. -/
theorem claim1_tesseract_gate (lib : Option MrzLib) (text : List Char)
    (confidence : ℚ) :
    (scanFails (scanWithTesseract lib text confidence) = true ↔
      (confidence < 40 ∨
        ((tesseractData lib text).name = none ∧
         (tesseractData lib text).dateOfBirth = none ∧
         (tesseractData lib text).address = none ∧
         (tesseractData lib text).idNumber = none ∧
         (tesseractData lib text).state = none))) ∧
    (scanFails (scanWithTesseract lib text confidence) = false →
      scanWithTesseract lib text confidence =
        Except.ok { data := tesseractData lib text, rawText := text }) := by
  have hiff := allNull_iff (tesseractData lib text)
  unfold scanWithTesseract scanFails
  by_cases hc : confidence < 40
  · rw [decide_eq_true hc]
    simp [hc]
  · rw [decide_eq_false hc]
    by_cases hn : allNull (tesseractData lib text) = true
    · simp [hn, hc, hiff.mp hn]
    · have hn' : allNull (tesseractData lib text) = false := by
        simp [Bool.not_eq_true] at hn; exact hn
      simp [hn', hc]
      intro h1 h2 h3 h4 h5
      exact hn (hiff.mpr ⟨h1, h2, h3, h4, h5⟩)

/-- Witness for claim C1 at a concrete passing input. -/
theorem claim1_witness :
    scanWithTesseract none "CALIFORNIA".data 50 =
      Except.ok { data := tesseractData none "CALIFORNIA".data,
                  rawText := "CALIFORNIA".data } :=
  (claim1_tesseract_gate none "CALIFORNIA".data 50).2 (by decide)

/-- Claim C2: on every 6-digit all-digit string the MRZ date
conversions (slash format in the backend services, dash format in the
client parser) compute the full birth year by the century pivot of the
specification: a two-digit year above 30 maps to the 1900s, otherwise
to the 2000s. -/
theorem claim2_century_pivot (s : List Char) (hlen : s.length = 6)
    (hdig : s.all Char.isDigit = true) :
    mrzDateSlash s = some ((s.drop 2).take 2 ++ '/' ::
      ((s.drop 4).take 2 ++ '/' ::
        natToChars (mrzPivotYear (digitsToNat (s.take 2))))) ∧
    dashDate s = natToChars (mrzPivotYear (digitsToNat (s.take 2))) ++ '-' ::
      ((s.drop 2).take 2 ++ '-' :: (s.drop 4).take 2) :=
  ⟨mrzDateSlash_eq s hlen hdig, dashDate_eq s⟩

/-- Witness for claim C2: the two boundary examples of the
specification, birth years 1975 and 2005. -/
theorem claim2_witness :
    mrzDateSlash "750101".data = some "01/01/1975".data ∧
    mrzDateSlash "050101".data = some "01/01/2005".data := by
  have h1 := claim2_century_pivot "750101".data (by decide) (by decide)
  have h2 := claim2_century_pivot "050101".data (by decide) (by decide)
  exact ⟨h1.1.trans (by decide), h2.1.trans (by decide)⟩

/-- Counterexample for claim C3: the client parser's MRZ path
(`parseMRZ` of `idParser.ts`) converts `"750101"` to `"1975-01-01"`,
which is not of the month/day/4-digit-year shape, so the conversion is
not formatted month/day/year in every code path. -/
theorem claim3_counterexample :
    (parseMRZ ["P<USADOE<<JOHN<<<<<<<<<<<<<<<<<<<<<<<<<<<<<<".data,
               "7501012M2501017USA<<<<<<<<<<<<<<<<<<<<<<<<06".data]).map
        ExtractedRecord.dateOfBirth = some (some "1975-01-01".data) ∧
    isSlashMDY "1975-01-01".data = false := by decide

/-- Claim C3 as amended: every successful 6-digit MRZ birth-date
conversion uses the pivoted four-digit year; the backend conversions
render it month/day/year with slashes, while the client parser's
conversion renders the same components year-month-day with dashes. -/
theorem claim3_date_formats (s : List Char) (hlen : s.length = 6)
    (hdig : s.all Char.isDigit = true) :
    ∃ mm dd y, mm.length = 2 ∧ dd.length = 2 ∧ y.length = 4 ∧
      y.all Char.isDigit = true ∧
      mrzDateSlash s = some (mm ++ '/' :: (dd ++ '/' :: y)) ∧
      dashDate s = y ++ '-' :: (mm ++ '-' :: dd) := by
  have htake : (s.take 2).length = 2 := by
    simp [List.length_take, hlen]
  have htd : (s.take 2).all Char.isDigit = true := by
    simp only [List.all_eq_true] at hdig ⊢
    intro c hc
    exact hdig c (List.mem_of_mem_take hc)
  have hyy : digitsToNat (s.take 2) < 100 := digitsToNat_two_lt _ htake htd
  have hy := pivotYear_props (digitsToNat (s.take 2)) hyy
  refine ⟨(s.drop 2).take 2, (s.drop 4).take 2,
    natToChars (mrzPivotYear (digitsToNat (s.take 2))), ?_, ?_, hy.2.2.1,
    hy.2.2.2, mrzDateSlash_eq s hlen hdig, dashDate_eq s⟩
  · simp [List.length_take, List.length_drop, hlen]
  · simp [List.length_take, List.length_drop, hlen]

/-- Witness for the amended claim C3 at the concrete input `"750101"`. -/
theorem claim3_witness :
    ∃ mm dd y, mm.length = 2 ∧ dd.length = 2 ∧ y.length = 4 ∧
      y.all Char.isDigit = true ∧
      mrzDateSlash "750101".data = some (mm ++ '/' :: (dd ++ '/' :: y)) ∧
      dashDate "750101".data = y ++ '-' :: (mm ++ '-' :: dd) :=
  claim3_date_formats "750101".data (by decide) (by decide)

/-- Claim C5: on any successful OCR service response, `scanWithEasyOCR`
throws exactly when all five structured fields of the resulting record
are null, and its outcome never depends on the reported confidence. -/
theorem claim5_easyocr_gate (raw : List Char) (conf : ℚ)
    (ls : List (List Char)) (mrz : Option EasyMrz) :
    (scanFails (scanWithEasyOCR ⟨raw, conf, ls, mrz⟩) = true ↔
      ((easyData ⟨raw, conf, ls, mrz⟩).name = none ∧
       (easyData ⟨raw, conf, ls, mrz⟩).dateOfBirth = none ∧
       (easyData ⟨raw, conf, ls, mrz⟩).address = none ∧
       (easyData ⟨raw, conf, ls, mrz⟩).idNumber = none ∧
       (easyData ⟨raw, conf, ls, mrz⟩).state = none)) ∧
    (∀ conf' : ℚ, scanWithEasyOCR ⟨raw, conf, ls, mrz⟩ =
      scanWithEasyOCR ⟨raw, conf', ls, mrz⟩) := by
  constructor
  · have hiff := allNull_iff (easyData ⟨raw, conf, ls, mrz⟩)
    unfold scanWithEasyOCR scanFails
    by_cases hn : allNull (easyData ⟨raw, conf, ls, mrz⟩) = true
    · simp [hn, hiff.mp hn]
    · have hn' : allNull (easyData ⟨raw, conf, ls, mrz⟩) = false := by
        simp [Bool.not_eq_true] at hn; exact hn
      simp [hn']
      intro h1 h2 h3 h4 h5
      exact hn (hiff.mpr ⟨h1, h2, h3, h4, h5⟩)
  · intro conf'
    rfl

/-- Claim C6 (the code contradicts it): after a first failed resolution
the cell is marked `unavailable`, yet a later call with the cell in
that state still attempts the dynamic import — the falsy `false`
sentinel does not short-circuit the `if (_mrzParse)` guard. -/
theorem claim6_retry_bug :
    (getMrzParse MrzCell.unresolved (Except.error ())).cell = MrzCell.unavailable ∧
    (getMrzParse MrzCell.unavailable (Except.error ())).attemptedImport = true :=
  ⟨rfl, rfl⟩

/-- Counterexample for claim C7: the full-name path and the
abbreviation path disagree for West Virginia — the full-name loop hits
the substring `VIRGINIA` first (map order), the abbreviation path maps
`WV` correctly. -/
theorem claim7_counterexample :
    extractState "WEST VIRGINIA".data = some "Virginia".data ∧
    extractState "WV 94105".data = some "West Virginia".data := by decide

/-- Claim C7 as amended: for every region of the lookup table other
than West Virginia, text consisting of the region's uppercased full
name and text of its abbreviation followed by a postal code resolve to
the same canonical name. -/
theorem claim7_state_paths_agree :
    ∀ p ∈ stateMap, p.2 ≠ "West Virginia".data →
      extractState (upperL p.2) = some p.2 ∧
      extractState (p.1 ++ ' ' :: "94105".data) = some p.2 := by decide

/-- Witness for the amended claim C7 at the California row (the
specification's own example). -/
theorem claim7_witness :
    extractState (upperL "California".data) = some "California".data ∧
    extractState ("CA".data ++ ' ' :: "94105".data) = some "California".data :=
  claim7_state_paths_agree ("CA".data, "California".data) (by decide) (by decide)

/-- Claim C10: `parseIDText` is total (the model is a plain function)
and the `rawText` field of its result is exactly the input, in the MRZ
path and in the heuristic path alike. -/
theorem claim10_rawText_id (ocrText : List Char) :
    (parseIDText ocrText).rawText = ocrText := by
  unfold parseIDText
  cases h : parseMRZ (linesOf ocrText) <;> simp [h]

/-- Counterexample for claim C4: a 25-character line of the MRZ
alphabet is a candidate per the claim's 20-44 range (and per the
backend detector), but the client parser's 30-44 pattern rejects it,
so two such lines do not trigger MRZ parsing there. -/
theorem claim4_counterexample :
    specMrzCandidate 20 "ABCDE01234ABCDE01234ABCDE".data = true ∧
    specMrzCandidate 20 "0123456789ABCDE456789ABCD".data = true ∧
    mrzCandidate 30 "ABCDE01234ABCDE01234ABCDE".data = false ∧
    parseMRZ ["ABCDE01234ABCDE01234ABCDE".data,
              "0123456789ABCDE456789ABCD".data] = none := by decide

/-- Claim C4 as amended: both detectors classify candidates by the
claim's rule except for the lower length bound — 20 for the backend
service, 30 for the client parser — and in both code paths fewer than
two candidate lines leave the MRZ parser untriggered (the backend
falls through to the heuristic path whatever the resolved decoder;
the client parser returns null). -/
theorem claim4_mrz_detection :
    (∀ l, mrzCandidate 20 l = specMrzCandidate 20 l) ∧
    (∀ l, mrzCandidate 30 l = specMrzCandidate 30 l) ∧
    (∀ (lib : Option MrzLib) (text : List Char),
      ((linesOf text).filter (mrzCandidate 20)).length < 2 →
        tesseractData lib text = regexData (linesOf text) text) ∧
    (∀ lines : List (List Char),
      (lines.filter (mrzCandidate 30)).length < 2 → parseMRZ lines = none) := by
  refine ⟨fun l => rfl, fun l => rfl, ?_, ?_⟩
  · intro lib text h
    have h2 : ¬ (2 ≤ ((linesOf text).filter (mrzCandidate 20)).length) := by omega
    simp [tesseractData, h2]
  · intro lines h
    simp [parseMRZ, h]

/-- Witness for the amended claim C4: a single candidate line (in
either range) does not trigger MRZ parsing. -/
theorem claim4_witness :
    tesseractData none "CALIFORNIA".data
      = regexData (linesOf "CALIFORNIA".data) "CALIFORNIA".data ∧
    parseMRZ ["ABCDE01234ABCDE01234ABCDE01234".data] = none := by
  constructor
  · exact claim4_mrz_detection.2.2.1 none "CALIFORNIA".data (by decide)
  · exact claim4_mrz_detection.2.2.2 _ (by decide)

/-- A stopped address-capture state absorbs all further lines. -/
theorem foldl_addrStep_stopped (st : AddrState) (hs : st.stopped = true) :
    ∀ lines : List (List Char), lines.foldl addrStep st = st := by
  intro lines
  induction lines with
  | nil => rfl
  | cons l rest ih =>
    rw [List.foldl_cons]
    have hstep : addrStep st l = st := by simp [addrStep, hs]
    rw [hstep]
    exact ih

/-- The source's capture loop agrees with the amended step-function
description from any intermediate state. -/
theorem extractAddressGo_eq_foldl :
    ∀ (lines : List (List Char)) (cap : Bool) (acc : List (List Char)),
      extractAddressGo lines cap acc =
        (lines.foldl addrStep { pieces := acc, capturing := cap,
                                stopped := false }).pieces := by
  intro lines
  induction lines with
  | nil => intro cap acc; rfl
  | cons line rest ih =>
    intro cap acc
    rw [List.foldl_cons]
    by_cases h1 : addrLabelLine line = true
    · simp [extractAddressGo, addrStep, h1, ih]
    · by_cases hz : zipTest line = true
      all_goals by_cases hs : streetTest line = true
      all_goals by_cases hu : usStatesTest line = true
      all_goals cases cap
      all_goals simp [extractAddressGo, addrStep, h1, hz, hs, hu, ih,
        foldl_addrStep_stopped]

/-- Counterexample for claim C8: a postal-code line of length five is
not captured, yet the source stops there; under the claim's rule
("capture stops immediately after the first captured line containing a
postal code") the capture would continue past it. -/
theorem claim8_counterexample :
    extractAddress ["ADDRESS: 123 MAIN ST".data, "94105".data,
        "ANYTOWN CA 94105".data] = some "123 MAIN ST".data ∧
    extractAddressSpec ["ADDRESS: 123 MAIN ST".data, "94105".data,
        "ANYTOWN CA 94105".data] = some "123 MAIN ST, 94105".data := by decide

/-- Claim C8 as amended: the capture scans lines in order with label
lines starting capture (contributing their after-label text), street
or region-plus-postal-code lines auto-starting it, only lines longer
than five characters captured, the scan stopping at the first
postal-code line examined in the capture branch (captured or not), and
the captured lines joined with a comma and space — equivalently, the
fold of `addrStep`.  The claim's own example behaves as stated. -/
theorem claim8_address_capture :
    (∀ lines, extractAddress lines = extractAddressSpecAmended lines) ∧
    extractAddress ["ADDRESS: 123 MAIN ST".data, "ANYTOWN CA 94105".data]
      = some "123 MAIN ST, ANYTOWN CA 94105".data := by
  constructor
  · intro lines
    unfold extractAddress extractAddressSpecAmended
    rw [extractAddressGo_eq_foldl]
  · decide

/-- Counterexample for claim C9: a successful OCR service response
whose structured MRZ block carries a document number while its raw
text is empty makes `scanWithEasyOCR` succeed with an empty `rawText`. -/
theorem claim9_counterexample :
    scanWithEasyOCR ⟨[], 95, [],
        some ⟨none, none, some "AB123".data, none, none, none⟩⟩ =
      Except.ok { data := { name := none, dateOfBirth := none, address := none,
                            idNumber := some "AB123".data, state := none },
                  rawText := [] } := rfl

/-- Claim C9 as amended: whenever the Tesseract adapter succeeds its
`rawText` is non-empty (an empty recognition text yields an all-null
record, which the gate rejects); the EasyOCR adapter does not have
this property. -/
theorem claim9_tesseract_rawText (lib : Option MrzLib) (text : List Char)
    (conf : ℚ) (r : ScanOk)
    (h : scanWithTesseract lib text conf = Except.ok r) :
    r.rawText ≠ [] := by
  by_cases ht : text = []
  · subst ht
    have hdata : tesseractData lib [] =
        { name := none, dateOfBirth := none, address := none,
          idNumber := none, state := none } := rfl
    have hfail : scanWithTesseract lib [] conf = Except.error () := by
      simp [scanWithTesseract, hdata, allNull]
    rw [hfail] at h
    cases h
  · unfold scanWithTesseract at h
    split at h
    · cases h
    · injection h with h'
      intro hr
      apply ht
      rw [← h'] at hr
      exact hr

/-- Witness for the amended claim C9 at a concrete successful scan. -/
theorem claim9_witness :
    ({ data := { name := none, dateOfBirth := none, address := none,
                 idNumber := some "CALIFORNIA".data,
                 state := some "California".data },
       rawText := "CALIFORNIA".data } : ScanOk).rawText ≠ [] :=
  claim9_tesseract_rawText none "CALIFORNIA".data 50 _ rfl
